import Mathlib

/-!
Verification of the NCIRL chatbot client scripts.

The development shallowly embeds the browser JavaScript of the repository:

* the streaming-response consumer of `sendMessage` in `static/js/index.js`
  (lines 85-162), which reads a chunked `fetch` body, splits each decoded
  chunk on line breaks, parses `data: `-prefixed lines as JSON events and
  forwards incremental text to the chat display;
* the `filterKnowledge` search/filter function of the admin page script.

JavaScript strings are modelled as `List Char` (`JStr`), and the handful of
string builtins the code uses (`split('\n')`, `startsWith`, `slice`,
`includes`, `toLowerCase`, `trim`) are given by plain structural recursion
with the same semantics.  `JSON.parse` is a platform builtin, not repository
code, so the consumer is parameterised by an arbitrary parsing function
`Parse : JStr → Option Event`; `none` models a thrown parse exception.
An `Event` records the truthiness-relevant shape of the parsed object:
the optional `content` string and the truthiness of its `error` and `done`
fields.

The display sink is modelled as the list of texts written to
`contentDiv.innerHTML`, recorded before the purely presentational
`formatBotMessage` markdown formatting is applied, together with the
"currently streaming" marker (`contentDiv.id === 'streaming-message'`),
which the `done` event clears and which the `catch` handler consults via
`document.getElementById('streaming-message')`.
-/

/-- JavaScript strings, modelled as lists of characters. -/
abbrev JStr := List Char

/-- `String.prototype.split('\n')`: split on every newline, keeping empty
segments, so a trailing newline yields a final empty segment and the empty
string yields `[[]]`. -/
def jsSplitNl : JStr → List JStr
  | [] => [[]]
  | c :: rest =>
    let r := jsSplitNl rest
    if c = '\n' then [] :: r
    else
      match r with
      | [] => [[c]]
      | l :: ls => (c :: l) :: ls

/-- `hay.includes(needle)`: contiguous-substring test. -/
def jsIncludes (hay needle : JStr) : Bool :=
  needle.isPrefixOf hay ||
    match hay with
    | [] => false
    | _ :: t => jsIncludes t needle

/-- `String.prototype.toLowerCase` (character-wise lowering). -/
def jsToLower (s : JStr) : JStr := s.map Char.toLower

/-- `String.prototype.trim`: drop leading and trailing whitespace. -/
def jsTrim (s : JStr) : JStr :=
  ((s.dropWhile Char.isWhitespace).reverse.dropWhile Char.isWhitespace).reverse

/-- The recognised event-line prefix `'data: '` (index.js line 130). -/
def dataPrefix : JStr := "data: ".toList

/-- The truthiness-relevant shape of an object returned by `JSON.parse` on
an event payload: the optional `content` field (a string, possibly empty),
and the truthiness of the `error` and `done` fields. -/
structure Event where
  content : Option JStr
  error : Bool
  done : Bool
deriving DecidableEq

/-- A JSON parser for event payloads.  `JSON.parse` is a platform builtin;
the consumer is parameterised over it.  `none` models a thrown exception
(caught at index.js lines 150-152). -/
abbrev Parse := JStr → Option Event

/-- Truthiness of `data.content` in JavaScript: an absent field and the
empty string are both falsy; any non-empty string is truthy. -/
def contentIsTruthy : Option JStr → Bool
  | none => false
  | some s => !s.isEmpty

/-- The value `data.content` contributes to `fullText += data.content`
(only ever used under a truthiness check, so the `none` case is moot). -/
def contentOrEmpty : Option JStr → JStr
  | none => []
  | some s => s

/-- The fixed in-band error message (index.js line 135). -/
def errorText : JStr :=
  "Sorry, I encountered an error. Please try again.".toList

/-- The fixed connection-error message (index.js line 159). -/
def connErrorText : JStr :=
  "Connection error. Please check if the server is running.".toList

/-- The state of one streaming consumer invocation: the accumulated
`fullText`, the list of texts written to the display sink so far (in
emission order), and whether the placeholder still carries the
`streaming-message` id. -/
structure ConsumerState where
  fullText : JStr
  updates : List JStr
  streaming : Bool
deriving DecidableEq

/-- The consumer state right after the placeholder `contentDiv` is created
(index.js lines 101-103, 119). -/
def initConsumer : ConsumerState :=
  { fullText := [], updates := [], streaming := true }

/-- The body of the inner `try` after a successful `JSON.parse`
(index.js lines 134-149).  Returns the new state together with the flag
`true` when the `break` on an error event was executed. -/
def applyData (data : Event) (st : ConsumerState) : ConsumerState × Bool :=
  if data.error then
    ({ st with updates := st.updates ++ [errorText] }, true)
  else
    let st1 :=
      if contentIsTruthy data.content then
        { st with
            fullText := st.fullText ++ contentOrEmpty data.content,
            updates := st.updates ++ [st.fullText ++ contentOrEmpty data.content] }
      else st
    let st2 := if data.done then { st1 with streaming := false } else st1
    (st2, false)

/-- One iteration of `for (const line of lines)` (index.js lines 129-154):
non-prefixed lines are ignored, a failed parse is caught and ignored, and a
parsed event is applied by `applyData`. -/
def handleLine (parse : Parse) (line : JStr) (st : ConsumerState) :
    ConsumerState × Bool :=
  if dataPrefix.isPrefixOf line then
    match parse (line.drop 6) with
    | some data => applyData data st
    | none => (st, false)
  else (st, false)

/-- The `for` loop over one chunk's lines; the second component of
`handleLine` is the `break` executed on an error event, which abandons the
remaining lines of this chunk only. -/
def processLines (parse : Parse) : List JStr → ConsumerState → ConsumerState
  | [], st => st
  | line :: rest, st =>
    let r := handleLine parse line st
    if r.2 then r.1 else processLines parse rest r.1

/-- Processing of one decoded chunk (index.js lines 126-154): the chunk is
split on newlines and every resulting segment — including the trailing,
possibly incomplete, one — is processed; no segment is carried over. -/
def processChunk (parse : Parse) (chunk : JStr) (st : ConsumerState) :
    ConsumerState :=
  processLines parse (jsSplitNl chunk) st

/-- The whole `while (true)` read loop (index.js lines 122-155) over the
results of `reader.read()`: `some chunk` is a read that delivered data,
`none` is `{ done: true }`, on which the loop breaks. -/
def readLoop (parse : Parse) : List (Option JStr) → ConsumerState → ConsumerState
  | [], st => st
  | none :: _, st => st
  | some chunk :: rest, st => readLoop parse rest (processChunk parse chunk st)

/-- The read loop on a stream that delivers `chunks` in order (a plain
left fold of `processChunk`). -/
def consumeStream (parse : Parse) (chunks : List JStr) (st : ConsumerState) :
    ConsumerState :=
  chunks.foldl (fun st c => processChunk parse c st) st

/-- The read loop together with the surrounding `try`/`catch`
(index.js lines 110-161): `fails = true` means the read following the
delivered chunks threw.  The handler writes the connection-error message
to the element found by `getElementById('streaming-message')`, which is
the placeholder exactly when its id has not been cleared by a `done`
event; otherwise it writes nothing.  The failure is not retried. -/
def streamRun (parse : Parse) (chunks : List JStr) (fails : Bool)
    (st : ConsumerState) : ConsumerState :=
  let st1 := consumeStream parse chunks st
  if fails then
    if st1.streaming then
      { st1 with updates := st1.updates ++ [connErrorText] }
    else st1
  else st1

/-- The externally visible effects of one `sendMessage` call: the request
body sent to `/chat` (if any), the messages appended to the chat log
(`isUser` flag and text; the empty bot entry is the streaming placeholder),
the input field's value afterwards, and the consumer run (absent when the
guard returned early). -/
structure SendResult where
  requestSent : Option JStr
  chatAdditions : List (Bool × JStr)
  inputAfter : JStr
  consumer : Option ConsumerState
deriving DecidableEq

/-- `sendMessage` (index.js lines 85-162): trim the input; on an empty
result return with no effect; otherwise add the user message, clear the
input, append the placeholder, issue the request and run the consumer on
the response stream (`chunks` delivered, then EOF or a failing read). -/
def sendMessage (parse : Parse) (chunks : List JStr) (fails : Bool)
    (input : JStr) : SendResult :=
  let message := jsTrim input
  if message.isEmpty then
    { requestSent := none, chatAdditions := [], inputAfter := input,
      consumer := none }
  else
    { requestSent := some message,
      chatAdditions := [(true, message), (false, [])],
      inputAfter := [],
      consumer := some (streamRun parse chunks fails initConsumer) }

/-- A line is benign when, if it carries the event prefix, its payload does
not parse to an error-flagged event (it may fail to parse, or parse to a
content/done event). -/
def lineOk (parse : Parse) (line : JStr) : Bool :=
  !(dataPrefix.isPrefixOf line) ||
    match parse (line.drop 6) with
    | some e => !e.error
    | none => true

/-- The content fragment a single line contributes to the accumulated
text: the truthy `content` of a successfully parsed prefixed line, and the
empty string otherwise. -/
def lineFrag (parse : Parse) (line : JStr) : JStr :=
  if dataPrefix.isPrefixOf line then
    match parse (line.drop 6) with
    | some e => if contentIsTruthy e.content then contentOrEmpty e.content else []
    | none => []
  else []

/-- The concatenation of the content fragments of one chunk's lines. -/
def chunkFrags (parse : Parse) (chunk : JStr) : JStr :=
  ((jsSplitNl chunk).map (lineFrag parse)).flatten

/-- Models the behaviour of `JSON.parse` on the concrete payloads used in
the examples below: each listed well-formed JSON object maps to its
`Event` abstraction, and every other input — such as the truncated
`\x7b"content":"hi` or `\x7bbad` — throws, modelled as `none`. -/
def testParse : Parse := fun s =>
  if s = "\x7b\"content\":\"Hel\"\x7d".toList then
    some { content := some ("Hel".toList), error := false, done := false }
  else if s = "\x7b\"content\":\"lo\"\x7d".toList then
    some { content := some ("lo".toList), error := false, done := false }
  else if s = "\x7b\"content\":\"hi\"\x7d".toList then
    some { content := some ("hi".toList), error := false, done := false }
  else if s = "\x7b\"content\":\"X\"\x7d".toList then
    some { content := some ("X".toList), error := false, done := false }
  else if s = "\x7b\"content\":\"Y\"\x7d".toList then
    some { content := some ("Y".toList), error := false, done := false }
  else if s = "\x7b\"error\":true\x7d".toList then
    some { content := none, error := true, done := false }
  else if s = "\x7b\"done\":true\x7d".toList then
    some { content := none, error := false, done := true }
  else none

/-- A knowledge entry as used by the admin page filter (the `id` and
creation date take no part in filtering). -/
structure KnowledgeItem where
  id : Nat
  category : JStr
  question : JStr
  answer : JStr
  source : JStr
deriving DecidableEq

/-- `searchInput ? searchInput.value.toLowerCase() : ''`. -/
def selSearch : Option JStr → JStr
  | some v => jsToLower v
  | none => []

/-- `categoryFilter ? categoryFilter.value : 'all'`. -/
def selCategory : Option JStr → JStr
  | some v => v
  | none => "all".toList

/-- The search predicate of `filterKnowledge`: the (already lowercased)
term occurs in the lowercased question, answer, category or source. -/
def matchesSearch (searchTerm : JStr) (item : KnowledgeItem) : Bool :=
  jsIncludes (jsToLower item.question) searchTerm ||
  jsIncludes (jsToLower item.answer) searchTerm ||
  jsIncludes (jsToLower item.category) searchTerm ||
  jsIncludes (jsToLower item.source) searchTerm

/-- `filterKnowledge` (admin page script, lines 193-217): filter the loaded
list by exact category match unless the selection is `'all'`, then by the
search predicate unless the term is empty, and display the result (the
rendering and count updates are not modelled). -/
def filterKnowledge (allKnowledge : List KnowledgeItem)
    (searchInput categoryFilter : Option JStr) : List KnowledgeItem :=
  let searchTerm := selSearch searchInput
  let selectedCategory := selCategory categoryFilter
  let filtered := allKnowledge
  let filtered :=
    if selectedCategory ≠ "all".toList then
      filtered.filter (fun item => decide (item.category = selectedCategory))
    else filtered
  let filtered :=
    if searchTerm ≠ [] then
      filtered.filter (fun item => matchesSearch searchTerm item)
    else filtered
  filtered

/-- The combined per-item condition of the claim: category matches the
selection (or the selection is `'all'`), and the term matches the search
predicate. -/
def displayedCond (searchTerm selectedCategory : JStr)
    (item : KnowledgeItem) : Bool :=
  (decide (selectedCategory = "all".toList) ||
    decide (item.category = selectedCategory)) &&
  matchesSearch searchTerm item

/-- One consumer state extends another when its accumulated text and its
update list are obtained from the other's purely by appending at the end. -/
def appendOnly (st st' : ConsumerState) : Prop :=
  (∃ t, st'.fullText = st.fullText ++ t) ∧
  (∃ u, st'.updates = st.updates ++ u)

lemma jsIncludes_nil (l : JStr) : jsIncludes l [] = true := by
  cases l with
  | nil => rfl
  | cons c t => simp [jsIncludes, List.isPrefixOf]

lemma matchesSearch_nil (item : KnowledgeItem) : matchesSearch [] item = true := by
  simp [matchesSearch, jsIncludes_nil]

lemma applyData_error (e : Event) (st : ConsumerState) (h : e.error = true) :
    applyData e st = ({ st with updates := st.updates ++ [errorText] }, true) := by
  simp [applyData, h]

lemma applyData_not_error (e : Event) (st : ConsumerState) (h : e.error = false) :
    (applyData e st).2 = false ∧
    (applyData e st).1.fullText
      = st.fullText ++ (if contentIsTruthy e.content then contentOrEmpty e.content else []) ∧
    (applyData e st).1.updates
      = st.updates ++ (if contentIsTruthy e.content
          then [st.fullText ++ contentOrEmpty e.content] else []) ∧
    (applyData e st).1.streaming = (st.streaming && !e.done) := by
  by_cases hc : contentIsTruthy e.content <;> by_cases hd : e.done <;>
    simp [applyData, h, hc, hd]

lemma appendOnly_refl (st : ConsumerState) : appendOnly st st :=
  ⟨⟨[], by simp⟩, ⟨[], by simp⟩⟩

lemma appendOnly_trans {a b c : ConsumerState}
    (h1 : appendOnly a b) (h2 : appendOnly b c) : appendOnly a c := by
  obtain ⟨⟨t1, ht1⟩, ⟨u1, hu1⟩⟩ := h1
  obtain ⟨⟨t2, ht2⟩, ⟨u2, hu2⟩⟩ := h2
  exact ⟨⟨t1 ++ t2, by simp [ht2, ht1]⟩, ⟨u1 ++ u2, by simp [hu2, hu1]⟩⟩

lemma applyData_appendOnly (e : Event) (st : ConsumerState) :
    appendOnly st (applyData e st).1 := by
  by_cases he : e.error
  · exact ⟨⟨[], by simp [applyData, he]⟩, ⟨[errorText], by simp [applyData, he]⟩⟩
  · have h := applyData_not_error e st (by simpa using he)
    exact ⟨⟨_, h.2.1⟩, ⟨_, h.2.2.1⟩⟩

lemma handleLine_appendOnly (parse : Parse) (line : JStr) (st : ConsumerState) :
    appendOnly st (handleLine parse line st).1 := by
  unfold handleLine
  by_cases hp : dataPrefix.isPrefixOf line
  · simp only [hp, if_true]
    cases hparse : parse (line.drop 6) with
    | none => exact appendOnly_refl st
    | some e => exact applyData_appendOnly e st
  · simp only [hp, if_false]
    exact appendOnly_refl st

lemma processLines_appendOnly (parse : Parse) (lines : List JStr)
    (st : ConsumerState) : appendOnly st (processLines parse lines st) := by
  induction lines generalizing st with
  | nil => exact appendOnly_refl st
  | cons l ls ih =>
    simp only [processLines]
    by_cases hb : (handleLine parse l st).2
    · simp only [hb, if_true]
      exact handleLine_appendOnly parse l st
    · simp only [hb, if_false]
      exact appendOnly_trans (handleLine_appendOnly parse l st)
        (ih (handleLine parse l st).1)

lemma consumeStream_appendOnly (parse : Parse) (chunks : List JStr)
    (st : ConsumerState) : appendOnly st (consumeStream parse chunks st) := by
  induction chunks generalizing st with
  | nil => exact appendOnly_refl st
  | cons c cs ih =>
    exact appendOnly_trans (processLines_appendOnly parse (jsSplitNl c) st)
      (ih (processChunk parse c st))

lemma processLines_fullText_frags (parse : Parse) (lines : List JStr)
    (st : ConsumerState) (h : ∀ l ∈ lines, lineOk parse l = true) :
    (processLines parse lines st).fullText
      = st.fullText ++ (lines.map (lineFrag parse)).flatten := by
  induction lines generalizing st with
  | nil => simp [processLines]
  | cons l ls ih =>
    have hl : lineOk parse l = true := h l (by simp)
    have hls : ∀ x ∈ ls, lineOk parse x = true := fun x hx => h x (by simp [hx])
    by_cases hp : dataPrefix.isPrefixOf l
    · cases hparse : parse (l.drop 6) with
      | none =>
        simp [processLines, handleLine, hp, hparse, lineFrag, ih _ hls]
      | some e =>
        have herr : e.error = false := by
          simpa [lineOk, hp, hparse] using hl
        have ha := applyData_not_error e st herr
        simp only [processLines, handleLine, hp, if_true, hparse, ha.1,
          Bool.false_eq_true, if_false]
        rw [ih _ hls, ha.2.1]
        simp [lineFrag, hp, hparse, List.append_assoc]
    · simp [processLines, handleLine, hp, lineFrag, ih _ hls]

/-- C1 (counterexample): the claimed chunk-boundary independence fails.
The two chunk sequences below have the same concatenation, whose single
event line carries the fragment `hi`, yet when the line is split across
the two chunks the consumer accumulates nothing: the truncated line of the
first chunk fails to parse and is dropped, with no carry-over into the
second chunk. -/
theorem split_line_dropped_cex :
    (consumeStream testParse
      ["data: \x7b\"content\":\"hi".toList, "\"\x7d\n".toList]
      initConsumer).fullText = [] ∧
    (consumeStream testParse
      ["data: \x7b\"content\":\"hi\"\x7d\n".toList]
      initConsumer).fullText = "hi".toList ∧
    "data: \x7b\"content\":\"hi".toList ++ "\"\x7d\n".toList
      = "data: \x7b\"content\":\"hi\"\x7d\n".toList := by
  decide

/-- C1 (amended): the consumer processes every segment of
`chunk.split('\n')` with no carry-over between chunks, so only when no
event line is split across a chunk boundary — each chunk's split yields
only intact lines, none of which parses to an error-flagged event — does
the final accumulated text equal the initial text followed by the
concatenation of all content fragments in arrival order. -/
theorem aligned_chunks_full_text (parse : Parse) (chunks : List JStr)
    (st : ConsumerState)
    (h : ∀ c ∈ chunks, ∀ l ∈ jsSplitNl c, lineOk parse l = true) :
    (consumeStream parse chunks st).fullText
      = st.fullText ++ (chunks.map (chunkFrags parse)).flatten := by
  induction chunks generalizing st with
  | nil => simp [consumeStream]
  | cons c cs ih =>
    have hc : ∀ l ∈ jsSplitNl c, lineOk parse l = true := h c (by simp)
    have hcs : ∀ x ∈ cs, ∀ l ∈ jsSplitNl x, lineOk parse l = true :=
      fun x hx => h x (by simp [hx])
    have step : consumeStream parse (c :: cs) st
        = consumeStream parse cs (processChunk parse c st) := rfl
    rw [step, ih _ hcs, processChunk,
      processLines_fullText_frags parse _ st hc]
    simp [chunkFrags, List.append_assoc]

/-- C1 (witness for the amended theorem): on the spec's own example —
`data: \x7b"content":"Hel"\x7d` in the first chunk, then
`data: \x7b"content":"lo"\x7d` and `data: \x7b"done":true\x7d` in the
second, each chunk newline-terminated — the accumulated text is the
fragment concatenation `Hello`. -/
theorem aligned_chunks_full_text_witness :
    (consumeStream testParse
      ["data: \x7b\"content\":\"Hel\"\x7d\n".toList,
       "data: \x7b\"content\":\"lo\"\x7d\ndata: \x7b\"done\":true\x7d\n".toList]
      initConsumer).fullText
      = initConsumer.fullText
        ++ (["data: \x7b\"content\":\"Hel\"\x7d\n".toList,
             "data: \x7b\"content\":\"lo\"\x7d\ndata: \x7b\"done\":true\x7d\n".toList].map
              (chunkFrags testParse)).flatten ∧
    initConsumer.fullText
      ++ (["data: \x7b\"content\":\"Hel\"\x7d\n".toList,
           "data: \x7b\"content\":\"lo\"\x7d\ndata: \x7b\"done\":true\x7d\n".toList].map
            (chunkFrags testParse)).flatten = "Hello".toList :=
  ⟨aligned_chunks_full_text testParse _ initConsumer (by decide), by decide⟩

/-- C2 (counterexample): an error event does stop the remaining lines of
its own chunk (the `X` fragment is skipped), but the `break` leaves only
the inner `for` loop, so the `Y` content event of the next chunk is still
appended and displayed after the error message, contradicting the claim
that no fragment from any subsequently read chunk is appended. -/
theorem error_event_later_chunk_cex :
    (consumeStream testParse
      ["data: \x7b\"error\":true\x7d\ndata: \x7b\"content\":\"X\"\x7d\n".toList,
       "data: \x7b\"content\":\"Y\"\x7d\n".toList]
      initConsumer).updates = [errorText, "Y".toList] ∧
    (consumeStream testParse
      ["data: \x7b\"error\":true\x7d\ndata: \x7b\"content\":\"X\"\x7d\n".toList,
       "data: \x7b\"content\":\"Y\"\x7d\n".toList]
      initConsumer).fullText = "Y".toList := by
  decide

/-- C2 (amended): once a line parses to an error-flagged event, the
consumer replaces the display with the fixed error message and processes
no further line of the *current* chunk — the resulting state does not
depend on the remaining lines; content events in subsequently read chunks
are still appended (see the counterexample). -/
theorem error_event_stops_current_chunk (parse : Parse) (line : JStr)
    (rest : List JStr) (st : ConsumerState) (e : Event)
    (hp : dataPrefix.isPrefixOf line = true)
    (hparse : parse (line.drop 6) = some e)
    (herr : e.error = true) :
    processLines parse (line :: rest) st
      = { st with updates := st.updates ++ [errorText] } := by
  simp [processLines, handleLine, hp, hparse, applyData_error e st herr]

/-- C2 (witness): the amended theorem at a concrete error line followed by
a concrete content line of the same chunk. -/
theorem error_event_stops_current_chunk_witness :
    processLines testParse
      ["data: \x7b\"error\":true\x7d".toList,
       "data: \x7b\"content\":\"X\"\x7d".toList]
      initConsumer
      = { initConsumer with updates := initConsumer.updates ++ [errorText] } :=
  error_event_stops_current_chunk testParse _ _ initConsumer
    { content := none, error := true, done := false }
    (by decide) (by decide) rfl

/-- C3 (confirmed): one consumer invocation is append-only — after
processing any further chunks (or any further lines of a chunk), the
accumulated text extends the earlier accumulated text and the sequence of
display updates extends the earlier sequence, so updates are emitted in
exactly the order the fragments arrived. -/
theorem accumulated_text_append_only (parse : Parse) (chunks : List JStr)
    (lines : List JStr) (st : ConsumerState) :
    appendOnly st (consumeStream parse chunks st) ∧
    appendOnly st (processLines parse lines st) :=
  ⟨consumeStream_appendOnly parse chunks st,
   processLines_appendOnly parse lines st⟩

/-- C4 (confirmed): a `data: `-prefixed line whose payload fails to parse
is skipped silently — processing a chunk's lines starting at such a line
is the same as processing the remaining lines, so neither the accumulated
text nor the display is changed and the stream is not aborted; in
particular the two-chunk stream `data: \x7bbad` then
`data: \x7b"content":"hi"\x7d` yields the displayed text `hi`. -/
theorem malformed_line_skipped :
    (∀ (parse : Parse) (line : JStr) (rest : List JStr) (st : ConsumerState),
      dataPrefix.isPrefixOf line = true → parse (line.drop 6) = none →
      processLines parse (line :: rest) st = processLines parse rest st) ∧
    (consumeStream testParse
      ["data: \x7bbad".toList, "data: \x7b\"content\":\"hi\"\x7d".toList]
      initConsumer).fullText = "hi".toList ∧
    (consumeStream testParse
      ["data: \x7bbad".toList, "data: \x7b\"content\":\"hi\"\x7d".toList]
      initConsumer).updates = ["hi".toList] := by
  refine ⟨fun parse line rest st hp hn => ?_, by decide, by decide⟩
  simp [processLines, handleLine, hp, hn]

/-- C4 (witness): the skip property applied to the concrete malformed line
`data: \x7bbad`. -/
theorem malformed_line_skipped_witness :
    processLines testParse ["data: \x7bbad".toList] initConsumer
      = processLines testParse [] initConsumer :=
  malformed_line_skipped.1 testParse ("data: \x7bbad".toList) [] initConsumer
    (by decide) (by decide)

/-- C5 (confirmed): a parsed event carrying the completion flag (and no
error flag) clears the streaming marker, does not break, and processing
continues with the remaining lines of the chunk on the updated state (and
the read loop likewise continues with the remaining chunks, since only an
exhausted reader ends it). -/
theorem done_event_clears_marker_continues (parse : Parse) (line : JStr)
    (rest : List JStr) (st : ConsumerState) (e : Event)
    (hp : dataPrefix.isPrefixOf line = true)
    (hparse : parse (line.drop 6) = some e)
    (herr : e.error = false) (hdone : e.done = true) :
    processLines parse (line :: rest) st
      = processLines parse rest (applyData e st).1 ∧
    (applyData e st).1.streaming = false ∧
    (applyData e st).2 = false := by
  have ha := applyData_not_error e st herr
  refine ⟨?_, ?_, ha.1⟩
  · simp [processLines, handleLine, hp, hparse, ha.1]
  · rw [ha.2.2.2, hdone]
    simp

/-- C5 (witness): the concrete done event `data: \x7b"done":true\x7d`
followed by a further content line that is still processed. -/
theorem done_event_clears_marker_continues_witness :
    processLines testParse
      ["data: \x7b\"done\":true\x7d".toList,
       "data: \x7b\"content\":\"hi\"\x7d".toList]
      initConsumer
      = processLines testParse ["data: \x7b\"content\":\"hi\"\x7d".toList]
          (applyData { content := none, error := false, done := true }
            initConsumer).1 ∧
    (applyData { content := none, error := false, done := true }
      initConsumer).1.streaming = false ∧
    (applyData { content := none, error := false, done := true }
      initConsumer).2 = false :=
  done_event_clears_marker_continues testParse _ _ initConsumer
    { content := none, error := false, done := true }
    (by decide) (by decide) rfl rfl

/-- C6 (counterexample): a read failure that occurs after a done event has
cleared the streaming marker produces *no* display update at all — the
`catch` handler finds no element with the `streaming-message` id —
contradicting the claim that every I/O failure performs a single display
update showing the fixed connection-error message. -/
theorem io_failure_after_done_cex :
    (streamRun testParse ["data: \x7b\"done\":true\x7d\n".toList] true
      initConsumer).updates = [] := by
  decide

/-- C6 (amended): an I/O failure is caught once and ends the loop with no
retry; it changes no accumulated text, and it performs exactly one display
update — the fixed connection-error message — when the streaming marker is
still set, and no display update when a done event has already cleared the
marker. -/
theorem io_failure_single_update (parse : Parse) (chunks : List JStr)
    (st : ConsumerState) :
    (streamRun parse chunks true st).fullText
      = (consumeStream parse chunks st).fullText ∧
    ((consumeStream parse chunks st).streaming = true →
      (streamRun parse chunks true st).updates
        = (consumeStream parse chunks st).updates ++ [connErrorText]) ∧
    ((consumeStream parse chunks st).streaming = false →
      (streamRun parse chunks true st).updates
        = (consumeStream parse chunks st).updates) := by
  unfold streamRun
  by_cases h : (consumeStream parse chunks st).streaming <;> simp [h]

/-- C6 (witness): a failure on the very first read (no chunks delivered,
marker still set) shows the connection-error message once. -/
theorem io_failure_single_update_witness :
    (streamRun testParse [] true initConsumer).updates
      = (consumeStream testParse [] initConsumer).updates ++ [connErrorText] :=
  (io_failure_single_update testParse [] initConsumer).2.1 (by decide)

/-- C7 (confirmed): the read loop on a stream that delivers its chunks and
then reports `\x7b done: true \x7d` ends in exactly the state reached after the
delivered chunks — reaching end-of-stream performs no further display
update, so the last displayed text is left intact whether or not any done
event occurred. -/
theorem eof_no_display_update (parse : Parse) (chunks : List JStr)
    (st : ConsumerState) :
    readLoop parse (chunks.map some ++ [none]) st
      = consumeStream parse chunks st := by
  induction chunks generalizing st with
  | nil => rfl
  | cons c cs ih =>
    show readLoop parse (cs.map some ++ [none]) (processChunk parse c st)
      = consumeStream parse (c :: cs) st
    rw [ih]
    rfl

/-- C8 (confirmed): when the whitespace-trimmed input is empty,
`sendMessage` returns before doing anything — no request is sent, nothing
is appended to the chat, the input field keeps its value and no consumer
runs. -/
theorem empty_input_no_effect (parse : Parse) (chunks : List JStr)
    (fails : Bool) (input : JStr) (h : jsTrim input = []) :
    sendMessage parse chunks fails input
      = { requestSent := none, chatAdditions := [], inputAfter := input,
          consumer := none } := by
  simp [sendMessage, h]

/-- C8 (witness): the guard at a concrete all-whitespace input. -/
theorem empty_input_no_effect_witness :
    sendMessage testParse [] false ("  ".toList)
      = { requestSent := none, chatAdditions := [],
          inputAfter := "  ".toList, consumer := none } :=
  empty_input_no_effect testParse [] false ("  ".toList) (by decide)

/-- C9 (confirmed): an event whose `content` field is present but empty is
handled exactly like one with no `content` field — the empty string is
falsy, so no fragment is appended, no display update is emitted, and
processing continues. -/
theorem empty_content_no_update (e : Event) (st : ConsumerState)
    (hc : e.content = some []) (herr : e.error = false) :
    applyData e st = applyData { e with content := none } st ∧
    (applyData e st).1.fullText = st.fullText ∧
    (applyData e st).1.updates = st.updates ∧
    (applyData e st).2 = false := by
  have ht : contentIsTruthy e.content = false := by simp [hc, contentIsTruthy]
  refine ⟨?_, ?_, ?_, (applyData_not_error e st herr).1⟩
  · simp [applyData, hc, herr, contentIsTruthy]
  · rw [(applyData_not_error e st herr).2.1, ht]
    simp
  · rw [(applyData_not_error e st herr).2.2.1, ht]
    simp

/-- C9 (witness): the concrete event with `content` equal to the empty
string. -/
theorem empty_content_no_update_witness :
    applyData { content := some [], error := false, done := false }
        initConsumer
      = applyData { content := none, error := false, done := false }
          initConsumer ∧
    (applyData { content := some [], error := false, done := false }
      initConsumer).1.fullText = initConsumer.fullText :=
  ⟨(empty_content_no_update _ initConsumer rfl rfl).1,
   (empty_content_no_update _ initConsumer rfl rfl).2.1⟩

/-- C10 (confirmed): `filterKnowledge` displays exactly the entries of the
loaded list, in their original order, whose category equals the selection
(or every entry when the selection is `all`) and whose lowercased
question, answer, category or source contains the lowercased search term;
with an empty search term and category `all` it displays the full loaded
list unchanged. -/
theorem filter_knowledge_displayed (ks : List KnowledgeItem)
    (si cf : Option JStr) :
    filterKnowledge ks si cf
      = ks.filter (displayedCond (selSearch si) (selCategory cf)) ∧
    filterKnowledge ks (some []) (some ("all".toList)) = ks := by
  constructor
  · simp only [filterKnowledge]
    by_cases hc : selCategory cf = "all".toList
    · by_cases hs : selSearch si = []
      · rw [if_neg (not_not_intro hs), if_neg (not_not_intro hc)]
        refine (List.filter_eq_self.mpr fun item _ => ?_).symm
        simp [displayedCond, hs, matchesSearch_nil, hc]
      · rw [if_pos hs, if_neg (not_not_intro hc)]
        refine List.filter_congr fun item _ => ?_
        simp [displayedCond, hc]
    · by_cases hs : selSearch si = []
      · rw [if_neg (not_not_intro hs), if_pos hc]
        have hc2 : ¬selCategory cf = ['a', 'l', 'l'] := by simpa using hc
        refine List.filter_congr fun item _ => ?_
        simp [displayedCond, hs, matchesSearch_nil, hc2]
      · rw [if_pos hs, if_pos hc, List.filter_filter]
        have hc2 : ¬selCategory cf = ['a', 'l', 'l'] := by simpa using hc
        refine List.filter_congr fun item _ => ?_
        simp [displayedCond, hc2, Bool.and_comm]
  · simp [filterKnowledge, selSearch, selCategory, jsToLower]
